import Mathlib

/-!
Shallow embedding of the spatial-augmentation core of
`src/dataloader/augmentor.py` (class `FlowAugmentor`, method
`spatial_transform`, lines 132-202) and of the standalone helper
`interpolate_holes_numpy` (lines 15-49).

Modelling conventions:
* images, flow fields and validity masks are `Grid` values: a pair of
  dimensions together with a total data function `ℕ → ℕ → α`;
  statements about pixels quantify over in-bounds indices;
* machine floats are modelled by exact rationals `ℚ` (the float literals
  `0.5` and `1e-5` become `1/2` and `1/100000`); a float32 value that may
  be NaN is modelled by `Option ℚ` with `none` playing NaN;
* every random draw of the original (`np.random.uniform`,
  `np.random.rand() < p`, `np.random.randint`) is an explicit field of a
  `Draw` record, so "for every outcome of the random draws" becomes a
  universal quantifier over `Draw`;
* the external resize primitive `cv2.resize(..., INTER_LINEAR)` is
  modelled by exact bilinear interpolation with OpenCV's conventions:
  destination size `round(n * scale)` (round half to even, as
  `saturate_cast<int>` does), source coordinate `(d + 1/2)/scale - 1/2`
  clamped into the source extent, and channel-wise interpolation;
* the external `scipy.interpolate.griddata` call is an arbitrary oracle
  function, since no property proved here depends on its values.
-/

namespace WAFT

/-- A raster of height `h` and width `w`; `data y x` is the value at row
`y`, column `x`.  The data function is total; only indices `y < h`,
`x < w` are meaningful. -/
structure Grid (α : Type) : Type where
  h : ℕ
  w : ℕ
  data : ℕ → ℕ → α

/-- A flow vector `(dx, dy)`: horizontal and vertical displacement. -/
abbrev Flo : Type := ℚ × ℚ

/-- Pad a grid with `pb` extra rows at the bottom and `pr` extra columns
on the right, filling with `z`; models `np.pad(g, ((0, pb), (0, pr)),
'constant', constant_values=0)` at lines 143-146. -/
def padBR {α : Type} (pb pr : ℕ) (z : α) (g : Grid α) : Grid α :=
  ⟨g.h + pb, g.w + pr, fun y x => if y < g.h ∧ x < g.w then g.data y x else z⟩

/-- Column reversal `g[:, ::-1]`. -/
def flipCols {α : Type} (g : Grid α) : Grid α :=
  ⟨g.h, g.w, fun y x => g.data y (g.w - 1 - x)⟩

/-- Row reversal `g[::-1, :]`. -/
def flipRows {α : Type} (g : Grid α) : Grid α :=
  ⟨g.h, g.w, fun y x => g.data (g.h - 1 - y) x⟩

/-- Pointwise multiplication of a flow grid by `[-1.0, 1.0]` (line 181). -/
def negX (g : Grid Flo) : Grid Flo :=
  ⟨g.h, g.w, fun y x => (-1 * (g.data y x).1, 1 * (g.data y x).2)⟩

/-- Pointwise multiplication of a flow grid by `[1.0, -1.0]` (line 186). -/
def negY (g : Grid Flo) : Grid Flo :=
  ⟨g.h, g.w, fun y x => (1 * (g.data y x).1, -1 * (g.data y x).2)⟩

/-- The slice `g[y0 : y0+ch, x0 : x0+cw]` with numpy clipping semantics
(lines 198-201). -/
def cropWin {α : Type} (y0 x0 ch cw : ℕ) (g : Grid α) : Grid α :=
  ⟨min ch (g.h - y0), min cw (g.w - x0), fun y x => g.data (y0 + y) (x0 + x)⟩

/-- `(valid.astype(np.float32) > 0.5).astype(bool)` (lines 164 and 174). -/
def thresholdHalf (g : Grid ℚ) : Grid Bool :=
  ⟨g.h, g.w, fun y x => decide ((1 : ℚ)/2 < g.data y x)⟩

/-- `valid.astype(np.float32)` on a boolean mask (line 170). -/
def boolToQ (g : Grid Bool) : Grid ℚ :=
  ⟨g.h, g.w, fun y x => if g.data y x then 1 else 0⟩

/-- `flow[~valid] = 0` (lines 169 and 175): zero the flow vector at every
pixel the mask marks invalid. -/
def maskFlow (flow : Grid Flo) (valid : Grid Bool) : Grid Flo :=
  ⟨flow.h, flow.w, fun y x => if valid.data y x then flow.data y x else (0, 0)⟩

/-- Round to nearest with ties to even, the behaviour of OpenCV's
`saturate_cast<int>` on the product `n * scale` when `cv2.resize`
computes the destination size. -/
def cvRound (q : ℚ) : ℤ :=
  let f := Int.floor q
  let r := q - f
  if (1 : ℚ)/2 < r then f + 1
  else if r < (1 : ℚ)/2 then f
  else if f % 2 = 0 then f else f + 1

/-- Destination extent of `cv2.resize(g, None, fx=s)` along one axis. -/
def resizedDim (n : ℕ) (s : ℚ) : ℕ :=
  (cvRound ((n : ℚ) * s)).toNat

/-- Clamp `q` into `[lo, hi]`. -/
def clampQ (lo hi q : ℚ) : ℚ := max lo (min q hi)

/-- Source coordinate sampled for destination index `d` by `cv2.resize`
at scale `s` on an axis of source extent `n`: `(d + 1/2)/s - 1/2`,
clamped into `[0, n-1]` (border replication). -/
def sampleCoord (n : ℕ) (s : ℚ) (d : ℕ) : ℚ :=
  clampQ 0 ((n : ℚ) - 1) (((d : ℚ) + 1/2) / s - 1/2)

/-- Modelled from the spec: the external collaborator
`cv2.resize(g, None, fx=sx, fy=sy, interpolation=cv2.INTER_LINEAR)`
(lines 167-172), which is not part of this repository.  Exact bilinear
interpolation ("linear interpolation" in spec section 4.1c) with
OpenCV's destination-size and coordinate conventions. -/
def resizeLinQ (sx sy : ℚ) (g : Grid ℚ) : Grid ℚ :=
  ⟨resizedDim g.h sy, resizedDim g.w sx, fun dy dx =>
    let yq := sampleCoord g.h sy dy
    let xq := sampleCoord g.w sx dx
    let y0 := (Int.floor yq).toNat
    let x0 := (Int.floor xq).toNat
    let y1 := min (y0 + 1) (g.h - 1)
    let x1 := min (x0 + 1) (g.w - 1)
    let ty := yq - (y0 : ℚ)
    let tx := xq - (x0 : ℚ)
    (1 - ty) * ((1 - tx) * g.data y0 x0 + tx * g.data y0 x1) +
      ty * ((1 - tx) * g.data y1 x0 + tx * g.data y1 x1)⟩

/-- Channel-wise bilinear resize of a two-channel flow grid, as
`cv2.resize` acts on an `H×W×2` array (line 171). -/
def resizeFlowQ (sx sy : ℚ) (g : Grid Flo) : Grid Flo :=
  let g1 := resizeLinQ sx sy ⟨g.h, g.w, fun y x => (g.data y x).1⟩
  let g2 := resizeLinQ sx sy ⟨g.h, g.w, fun y x => (g.data y x).2⟩
  ⟨g1.h, g1.w, fun y x => (g1.data y x, g2.data y x)⟩

/-- The float literal `1e-5` of line 173, modelled exactly. -/
def epsDiv : ℚ := 1 / 100000

/-- `flow = flow * [scale_x, scale_y] / (valid + 1e-5)[:, :, None]`
(line 173): multiply channel 1 by `scale_x` and channel 2 by `scale_y`,
then divide both channels by the validity density plus epsilon. -/
def flowScaleDiv (sx sy : ℚ) (flow : Grid Flo) (validF : Grid ℚ) : Grid Flo :=
  ⟨flow.h, flow.w, fun y x =>
    ((flow.data y x).1 * sx / (validF.data y x + epsDiv),
     (flow.data y x).2 * sy / (validF.data y x + epsDiv))⟩

/-- Configuration of `FlowAugmentor` relevant to `spatial_transform`:
`crop_size` and `do_flip` (lines 52-64).  The log2 scale bounds and the
probabilities only shape the distributions of the random draws, which
are quantified over explicitly in `Draw`. -/
structure Cfg : Type where
  crop_h : ℕ
  crop_w : ℕ
  do_flip : Bool

/-- One outcome of all random draws made by `spatial_transform`:
`scale` is `2 ** np.random.uniform(min_scale, max_scale)` (line 154);
`doStretch` is `np.random.rand() < stretch_prob` (line 157);
`stretchX`/`stretchY` are the factors `2 ** np.random.uniform(-max_stretch,
max_stretch)` (lines 158-159); `doSpatialAug` is
`np.random.rand() < spatial_aug_prob` (line 165); `doHFlip`/`doVFlip`
are the flip coins (lines 178 and 183); `y0f n`/`x0f n` are the values
returned by `np.random.randint(0, n)` (lines 191 and 196). -/
structure Draw : Type where
  scale : ℚ
  doStretch : Bool
  stretchX : ℚ
  stretchY : ℚ
  doSpatialAug : Bool
  doHFlip : Bool
  doVFlip : Bool
  y0f : ℕ → ℕ
  x0f : ℕ → ℕ

/-- A draw is well formed when each `np.random.randint(0, n)` value lies
in `[0, n)`, which is the support of that distribution. -/
def Draw.Wf (d : Draw) : Prop :=
  (∀ n, 0 < n → d.y0f n < n) ∧ (∀ n, 0 < n → d.x0f n < n)

/-- `min_scale = np.maximum((crop_h + 1)/ht, (crop_w + 1)/wd)`
(lines 150-152), computed on the padded extent `(ht, wd)`. -/
def minScaleQ (cfg : Cfg) (ht wd : ℕ) : ℚ :=
  max (((cfg.crop_h : ℚ) + 1) / (ht : ℚ)) (((cfg.crop_w : ℚ) + 1) / (wd : ℚ))

/-- Lines 154-162: the isotropic scale draw, the optional per-axis
stretch, and the clip `np.clip(scale, min_scale, None)`, which is
`max scale min_scale`.  Returns `(scale_x, scale_y)`. -/
def sampledScales (cfg : Cfg) (d : Draw) (ht wd : ℕ) : ℚ × ℚ :=
  let ms := minScaleQ cfg ht wd
  let p := if d.doStretch then (d.scale * d.stretchX, d.scale * d.stretchY)
           else (d.scale, d.scale)
  (max p.1 ms, max p.2 ms)

/-- Lines 133-146: pad all four inputs on the bottom and right with
zeros up to the crop size, using `img1`'s extent to size the padding;
no padding happens when both pad amounts are zero. -/
def padStep (cfg : Cfg) (img1 img2 : Grid ℚ) (flow : Grid Flo) (valid : Grid ℚ) :
    Grid ℚ × Grid ℚ × Grid Flo × Grid ℚ :=
  let pad_b := if cfg.crop_h > img1.h then cfg.crop_h - img1.h else 0
  let pad_r := if cfg.crop_w > img1.w then cfg.crop_w - img1.w else 0
  if pad_b ≠ 0 ∨ pad_r ≠ 0 then
    (padBR pad_b pad_r 0 img1, padBR pad_b pad_r 0 img2,
     padBR pad_b pad_r (0, 0) flow, padBR pad_b pad_r 0 valid)
  else (img1, img2, flow, valid)

/-- Lines 166-175, the body of the `spatial_aug_prob` branch: resize the
images, zero flow at invalid pixels, resize flow and the float validity
mask, rescale and density-normalise the flow, re-threshold validity and
zero flow at the newly invalid pixels. -/
def resampleStep (sx sy : ℚ) (img1 img2 : Grid ℚ) (flow : Grid Flo) (valid : Grid Bool) :
    Grid ℚ × Grid ℚ × Grid Flo × Grid Bool :=
  let img1 := resizeLinQ sx sy img1
  let img2 := resizeLinQ sx sy img2
  let flow := maskFlow flow valid
  let validF := boolToQ valid
  let flow := resizeFlowQ sx sy flow
  let validF := resizeLinQ sx sy validF
  let flow := flowScaleDiv sx sy flow validF
  let valid := thresholdHalf validF
  let flow := maskFlow flow valid
  (img1, img2, flow, valid)

/-- Lines 177-186: the flip block.  It transforms `img1`, `img2` and
`flow` only; the validity mask does not appear in these lines of the
source, so it is not an argument and is left unchanged by the caller. -/
def flipStep (do_flip doH doV : Bool) (img1 img2 : Grid ℚ) (flow : Grid Flo) :
    Grid ℚ × Grid ℚ × Grid Flo :=
  if do_flip then
    let p := if doH then (flipCols img1, flipCols img2, negX (flipCols flow))
             else (img1, img2, flow)
    if doV then (flipRows p.1, flipRows p.2.1, negY (flipRows p.2.2))
    else p
  else (img1, img2, flow)

/-- Lines 133-186: everything `spatial_transform` does before the final
crop: padding, scale sampling, the unconditional validity threshold of
line 164, the optional resampling branch, and the flips (which leave
`valid` untouched, as the source does). -/
def preCrop (cfg : Cfg) (d : Draw) (img1 img2 : Grid ℚ) (flow : Grid Flo)
    (valid0 : Grid ℚ) : Grid ℚ × Grid ℚ × Grid Flo × Grid Bool :=
  let p := padStep cfg img1 img2 flow valid0
  let s := sampledScales cfg d p.1.h p.1.w
  let valid := thresholdHalf p.2.2.2
  let r := if d.doSpatialAug then resampleStep s.1 s.2 p.1 p.2.1 p.2.2.1 valid
           else (p.1, p.2.1, p.2.2.1, valid)
  let f := flipStep cfg.do_flip d.doHFlip d.doVFlip r.1 r.2.1 r.2.2.1
  (f.1, f.2.1, f.2.2, r.2.2.2)

/-- Lines 132-202: `FlowAugmentor.spatial_transform`.  After `preCrop`,
the crop offsets are `0` when the current extent equals the crop size
and otherwise `np.random.randint(0, extent - crop)` (lines 188-196), and
the same window is sliced out of all four rasters (lines 198-201). -/
def spatial_transform (cfg : Cfg) (d : Draw) (img1 img2 : Grid ℚ) (flow : Grid Flo)
    (valid0 : Grid ℚ) : Grid ℚ × Grid ℚ × Grid Flo × Grid Bool :=
  let pc := preCrop cfg d img1 img2 flow valid0
  let y0 := if pc.1.h = cfg.crop_h then 0 else d.y0f (pc.1.h - cfg.crop_h)
  let x0 := if pc.1.w = cfg.crop_w then 0 else d.x0f (pc.1.w - cfg.crop_w)
  (cropWin y0 x0 cfg.crop_h cfg.crop_w pc.1,
   cropWin y0 x0 cfg.crop_h cfg.crop_w pc.2.1,
   cropWin y0 x0 cfg.crop_h cfg.crop_w pc.2.2.1,
   cropWin y0 x0 cfg.crop_h cfg.crop_w pc.2.2.2)

/-- A float32 scalar that may be NaN: `none` is NaN, `some q` is the
finite value `q`. -/
abbrev F32 : Type := Option ℚ

/-- Lines 15-49: `interpolate_holes_numpy`.  The image is cast to
float32 (identity in this model), the mask is cast to `bool` via
numpy's truthiness (nonzero), invalid pixels are overwritten with the
values `scipy.interpolate.griddata` returns for them (the oracle
`gridd`, an external collaborator), and finally every NaN entry of the
result is replaced by `0`. -/
def interpolate_holes_numpy (gridd : ℕ → ℕ → F32) (image : Grid F32)
    (valid_mask : Grid ℚ) : Grid F32 :=
  ⟨image.h, image.w, fun y x =>
    let v := if valid_mask.data y x ≠ 0 then image.data y x else gridd y x
    match v with
    | none => some 0
    | some q => some q⟩

/-! ## Shared lemmas -/

theorem flipStep_id (a doH doV : Bool) (i1 i2 : Grid ℚ) (fl : Grid Flo)
    (h : a = false ∨ (doH = false ∧ doV = false)) :
    flipStep a doH doV i1 i2 fl = (i1, i2, fl) := by
  rcases h with h | ⟨h1, h2⟩
  · simp [flipStep, h]
  · cases a <;> simp [flipStep, h1, h2]

theorem flipStep_dims (a doH doV : Bool) (i1 i2 : Grid ℚ) (fl : Grid Flo) :
    (flipStep a doH doV i1 i2 fl).1.h = i1.h ∧ (flipStep a doH doV i1 i2 fl).1.w = i1.w ∧
    (flipStep a doH doV i1 i2 fl).2.1.h = i2.h ∧ (flipStep a doH doV i1 i2 fl).2.1.w = i2.w ∧
    (flipStep a doH doV i1 i2 fl).2.2.h = fl.h ∧ (flipStep a doH doV i1 i2 fl).2.2.w = fl.w := by
  cases a <;> cases doH <;> cases doV <;>
    simp [flipStep, flipCols, flipRows, negX, negY]

theorem cvRound_ge_floor (q : ℚ) : Int.floor q ≤ cvRound q := by
  unfold cvRound
  dsimp only
  split
  · omega
  · split
    · omega
    · split <;> omega

theorem resizedDim_ge (n c : ℕ) (s : ℚ) (hn : 0 < n) (hs : ((c : ℚ) + 1) / (n : ℚ) ≤ s) :
    c < resizedDim n s := by
  have hn' : (0 : ℚ) < (n : ℚ) := by exact_mod_cast hn
  rw [div_le_iff₀ hn'] at hs
  have h1 : ((c : ℚ) + 1) ≤ (n : ℚ) * s := by linarith
  have h2 : ((c : ℤ) + 1) ≤ Int.floor ((n : ℚ) * s) := by
    rw [Int.le_floor]
    push_cast
    exact h1
  have h3 := cvRound_ge_floor ((n : ℚ) * s)
  unfold resizedDim
  omega

theorem sampledScales_ge (cfg : Cfg) (d : Draw) (ht wd : ℕ) :
    minScaleQ cfg ht wd ≤ (sampledScales cfg d ht wd).1 ∧
    minScaleQ cfg ht wd ≤ (sampledScales cfg d ht wd).2 :=
  ⟨le_max_right _ _, le_max_right _ _⟩

theorem resampleStep_dims (sx sy : ℚ) (i1 i2 : Grid ℚ) (fl : Grid Flo) (v : Grid Bool) :
    (resampleStep sx sy i1 i2 fl v).1.h = resizedDim i1.h sy ∧
    (resampleStep sx sy i1 i2 fl v).1.w = resizedDim i1.w sx ∧
    (resampleStep sx sy i1 i2 fl v).2.1.h = resizedDim i2.h sy ∧
    (resampleStep sx sy i1 i2 fl v).2.1.w = resizedDim i2.w sx ∧
    (resampleStep sx sy i1 i2 fl v).2.2.1.h = resizedDim fl.h sy ∧
    (resampleStep sx sy i1 i2 fl v).2.2.1.w = resizedDim fl.w sx ∧
    (resampleStep sx sy i1 i2 fl v).2.2.2.h = resizedDim v.h sy ∧
    (resampleStep sx sy i1 i2 fl v).2.2.2.w = resizedDim v.w sx :=
  ⟨rfl, rfl, rfl, rfl, rfl, rfl, rfl, rfl⟩

theorem padStep_dims (cfg : Cfg) (i1 i2 : Grid ℚ) (fl : Grid Flo) (v : Grid ℚ)
    (h2h : i2.h = i1.h) (h2w : i2.w = i1.w) (hfh : fl.h = i1.h) (hfw : fl.w = i1.w)
    (hvh : v.h = i1.h) (hvw : v.w = i1.w) :
    (padStep cfg i1 i2 fl v).1.h = max i1.h cfg.crop_h ∧
    (padStep cfg i1 i2 fl v).1.w = max i1.w cfg.crop_w ∧
    (padStep cfg i1 i2 fl v).2.1.h = max i1.h cfg.crop_h ∧
    (padStep cfg i1 i2 fl v).2.1.w = max i1.w cfg.crop_w ∧
    (padStep cfg i1 i2 fl v).2.2.1.h = max i1.h cfg.crop_h ∧
    (padStep cfg i1 i2 fl v).2.2.1.w = max i1.w cfg.crop_w ∧
    (padStep cfg i1 i2 fl v).2.2.2.h = max i1.h cfg.crop_h ∧
    (padStep cfg i1 i2 fl v).2.2.2.w = max i1.w cfg.crop_w := by
  have hb : (if cfg.crop_h > i1.h then cfg.crop_h - i1.h else 0) = cfg.crop_h - i1.h := by
    split <;> omega
  have hr : (if cfg.crop_w > i1.w then cfg.crop_w - i1.w else 0) = cfg.crop_w - i1.w := by
    split <;> omega
  by_cases hc : cfg.crop_h - i1.h ≠ 0 ∨ cfg.crop_w - i1.w ≠ 0
  · have he : padStep cfg i1 i2 fl v =
        (padBR (cfg.crop_h - i1.h) (cfg.crop_w - i1.w) 0 i1,
         padBR (cfg.crop_h - i1.h) (cfg.crop_w - i1.w) 0 i2,
         padBR (cfg.crop_h - i1.h) (cfg.crop_w - i1.w) (0, 0) fl,
         padBR (cfg.crop_h - i1.h) (cfg.crop_w - i1.w) 0 v) := by
      simp only [padStep, hb, hr, if_pos hc]
    rw [he]
    dsimp only
    simp only [padBR]
    refine ⟨by omega, by omega, by omega, by omega, by omega, by omega, by omega, by omega⟩
  · have he : padStep cfg i1 i2 fl v = (i1, i2, fl, v) := by
      simp only [padStep, hb, hr, if_neg hc]
    rw [he]
    dsimp only
    refine ⟨by omega, by omega, by omega, by omega, by omega, by omega, by omega, by omega⟩

theorem resampleStep_flow_invalid (sx sy : ℚ) (i1 i2 : Grid ℚ) (fl : Grid Flo) (v : Grid Bool)
    (y x : ℕ) (h : (resampleStep sx sy i1 i2 fl v).2.2.2.data y x = false) :
    (resampleStep sx sy i1 i2 fl v).2.2.1.data y x = (0, 0) := by
  simp only [resampleStep] at h ⊢
  simp only [maskFlow]
  rw [h]
  simp

theorem preCrop_shape (cfg : Cfg) (d : Draw) (i1 i2 : Grid ℚ) (fl : Grid Flo) (v : Grid ℚ)
    (hch : 1 ≤ cfg.crop_h) (hcw : 1 ≤ cfg.crop_w)
    (h2h : i2.h = i1.h) (h2w : i2.w = i1.w) (hfh : fl.h = i1.h) (hfw : fl.w = i1.w)
    (hvh : v.h = i1.h) (hvw : v.w = i1.w) :
    cfg.crop_h ≤ (preCrop cfg d i1 i2 fl v).1.h ∧
    cfg.crop_w ≤ (preCrop cfg d i1 i2 fl v).1.w ∧
    (preCrop cfg d i1 i2 fl v).2.1.h = (preCrop cfg d i1 i2 fl v).1.h ∧
    (preCrop cfg d i1 i2 fl v).2.1.w = (preCrop cfg d i1 i2 fl v).1.w ∧
    (preCrop cfg d i1 i2 fl v).2.2.1.h = (preCrop cfg d i1 i2 fl v).1.h ∧
    (preCrop cfg d i1 i2 fl v).2.2.1.w = (preCrop cfg d i1 i2 fl v).1.w ∧
    (preCrop cfg d i1 i2 fl v).2.2.2.h = (preCrop cfg d i1 i2 fl v).1.h ∧
    (preCrop cfg d i1 i2 fl v).2.2.2.w = (preCrop cfg d i1 i2 fl v).1.w := by
  obtain ⟨p1h, p1w, p2h, p2w, p3h, p3w, p4h, p4w⟩ :=
    padStep_dims cfg i1 i2 fl v h2h h2w hfh hfw hvh hvw
  by_cases hd : d.doSpatialAug = true
  · simp only [preCrop]
    rw [if_pos hd]
    set p := padStep cfg i1 i2 fl v with hpdef
    set s := sampledScales cfg d p.1.h p.1.w with hsdef
    obtain ⟨f1h, f1w, f2h, f2w, f3h, f3w⟩ := flipStep_dims cfg.do_flip d.doHFlip d.doVFlip
      (resampleStep s.1 s.2 p.1 p.2.1 p.2.2.1 (thresholdHalf p.2.2.2)).1
      (resampleStep s.1 s.2 p.1 p.2.1 p.2.2.1 (thresholdHalf p.2.2.2)).2.1
      (resampleStep s.1 s.2 p.1 p.2.1 p.2.2.1 (thresholdHalf p.2.2.2)).2.2.1
    obtain ⟨r1h, r1w, r2h, r2w, r3h, r3w, r4h, r4w⟩ :=
      resampleStep_dims s.1 s.2 p.1 p.2.1 p.2.2.1 (thresholdHalf p.2.2.2)
    have hph : 0 < p.1.h := by omega
    have hpw : 0 < p.1.w := by omega
    have hgh : cfg.crop_h < resizedDim p.1.h s.2 := by
      refine resizedDim_ge p.1.h cfg.crop_h s.2 hph ?_
      exact le_trans (le_max_left _ _) (sampledScales_ge cfg d p.1.h p.1.w).2
    have hgw : cfg.crop_w < resizedDim p.1.w s.1 := by
      refine resizedDim_ge p.1.w cfg.crop_w s.1 hpw ?_
      exact le_trans (le_max_right _ _) (sampledScales_ge cfg d p.1.h p.1.w).1
    rw [f1h, f1w, f2h, f2w, f3h, f3w, r1h, r1w, r2h, r2w, r3h, r3w, r4h, r4w,
      show (thresholdHalf p.2.2.2).h = p.2.2.2.h from rfl,
      show (thresholdHalf p.2.2.2).w = p.2.2.2.w from rfl,
      p2h, p2w, p3h, p3w, p4h, p4w, ← p1h, ← p1w]
    exact ⟨by omega, by omega, rfl, rfl, rfl, rfl, rfl, rfl⟩
  · simp only [preCrop]
    rw [if_neg hd]
    set p := padStep cfg i1 i2 fl v with hpdef
    obtain ⟨f1h, f1w, f2h, f2w, f3h, f3w⟩ := flipStep_dims cfg.do_flip d.doHFlip d.doVFlip
      p.1 p.2.1 p.2.2.1
    rw [f1h, f1w, f2h, f2w, f3h, f3w]
    simp only [thresholdHalf]
    refine ⟨by omega, by omega, by omega, by omega, by omega, by omega, by omega, by omega⟩

/-! ## Claim theorems -/

/-- Claim C7: a horizontal flip alone mirrors column order of the images
and the flow and negates only the x-component of each flow vector; a
vertical flip alone mirrors row order and negates only the y-component;
both flips together mirror rows and columns and negate both components. -/
theorem C7_flip_semantics (i1 i2 : Grid ℚ) (fl : Grid Flo) :
    (∀ y x, y < i1.h → x < i1.w →
        (flipStep true true false i1 i2 fl).1.data y (i1.w - 1 - x) = i1.data y x) ∧
    (∀ y x, y < i2.h → x < i2.w →
        (flipStep true true false i1 i2 fl).2.1.data y (i2.w - 1 - x) = i2.data y x) ∧
    (∀ y x, y < fl.h → x < fl.w →
        (flipStep true true false i1 i2 fl).2.2.data y (fl.w - 1 - x)
          = (-(fl.data y x).1, (fl.data y x).2)) ∧
    (∀ y x, y < i1.h → x < i1.w →
        (flipStep true false true i1 i2 fl).1.data (i1.h - 1 - y) x = i1.data y x) ∧
    (∀ y x, y < i2.h → x < i2.w →
        (flipStep true false true i1 i2 fl).2.1.data (i2.h - 1 - y) x = i2.data y x) ∧
    (∀ y x, y < fl.h → x < fl.w →
        (flipStep true false true i1 i2 fl).2.2.data (fl.h - 1 - y) x
          = ((fl.data y x).1, -(fl.data y x).2)) ∧
    (∀ y x, y < i1.h → x < i1.w →
        (flipStep true true true i1 i2 fl).1.data (i1.h - 1 - y) (i1.w - 1 - x) = i1.data y x) ∧
    (∀ y x, y < i2.h → x < i2.w →
        (flipStep true true true i1 i2 fl).2.1.data (i2.h - 1 - y) (i2.w - 1 - x) = i2.data y x) ∧
    (∀ y x, y < fl.h → x < fl.w →
        (flipStep true true true i1 i2 fl).2.2.data (fl.h - 1 - y) (fl.w - 1 - x)
          = (-(fl.data y x).1, -(fl.data y x).2)) := by
  have hidx : ∀ n k : ℕ, k < n → n - 1 - (n - 1 - k) = k := fun n k hk => by omega
  refine ⟨?_, ?_, ?_, ?_, ?_, ?_, ?_, ?_, ?_⟩ <;> intro y x hy hx <;>
    simp only [flipStep, flipCols, flipRows, negX, negY, if_true, if_false,
      Bool.false_eq_true, ite_true, ite_false, hidx _ _ hx, hidx _ _ hy,
      neg_one_mul, one_mul, Prod.mk.eta]

/-- Witness for C7 at a concrete 1-pixel input. -/
theorem C7_witness :
    (flipStep true true false (⟨1, 1, fun _ _ => 5⟩ : Grid ℚ) ⟨1, 1, fun _ _ => 6⟩
        ⟨1, 1, fun _ _ => (3, 4)⟩).2.2.data 0 (1 - 1 - 0) = (-(3 : ℚ), (4 : ℚ)) :=
  (C7_flip_semantics ⟨1, 1, fun _ _ => 5⟩ ⟨1, 1, fun _ _ => 6⟩
    ⟨1, 1, fun _ _ => (3, 4)⟩).2.2.1 0 0 (by decide) (by decide)

/-- Claim C8: applying the horizontal flip twice returns images and flow
to their original extents, values and column order. -/
theorem C8_double_hflip (i1 i2 : Grid ℚ) (fl : Grid Flo) :
    (flipStep true true false (flipStep true true false i1 i2 fl).1
        (flipStep true true false i1 i2 fl).2.1 (flipStep true true false i1 i2 fl).2.2).1.h
      = i1.h ∧
    (flipStep true true false (flipStep true true false i1 i2 fl).1
        (flipStep true true false i1 i2 fl).2.1 (flipStep true true false i1 i2 fl).2.2).1.w
      = i1.w ∧
    (flipStep true true false (flipStep true true false i1 i2 fl).1
        (flipStep true true false i1 i2 fl).2.1 (flipStep true true false i1 i2 fl).2.2).2.1.h
      = i2.h ∧
    (flipStep true true false (flipStep true true false i1 i2 fl).1
        (flipStep true true false i1 i2 fl).2.1 (flipStep true true false i1 i2 fl).2.2).2.1.w
      = i2.w ∧
    (flipStep true true false (flipStep true true false i1 i2 fl).1
        (flipStep true true false i1 i2 fl).2.1 (flipStep true true false i1 i2 fl).2.2).2.2.h
      = fl.h ∧
    (flipStep true true false (flipStep true true false i1 i2 fl).1
        (flipStep true true false i1 i2 fl).2.1 (flipStep true true false i1 i2 fl).2.2).2.2.w
      = fl.w ∧
    (∀ y x, y < i1.h → x < i1.w →
      (flipStep true true false (flipStep true true false i1 i2 fl).1
          (flipStep true true false i1 i2 fl).2.1
          (flipStep true true false i1 i2 fl).2.2).1.data y x = i1.data y x) ∧
    (∀ y x, y < i2.h → x < i2.w →
      (flipStep true true false (flipStep true true false i1 i2 fl).1
          (flipStep true true false i1 i2 fl).2.1
          (flipStep true true false i1 i2 fl).2.2).2.1.data y x = i2.data y x) ∧
    (∀ y x, y < fl.h → x < fl.w →
      (flipStep true true false (flipStep true true false i1 i2 fl).1
          (flipStep true true false i1 i2 fl).2.1
          (flipStep true true false i1 i2 fl).2.2).2.2.data y x = fl.data y x) := by
  have hidx : ∀ n k : ℕ, k < n → n - 1 - (n - 1 - k) = k := fun n k hk => by omega
  refine ⟨rfl, rfl, rfl, rfl, rfl, rfl, ?_, ?_, ?_⟩ <;> intro y x hy hx <;>
    simp only [flipStep, flipCols, flipRows, negX, negY, if_true, if_false,
      Bool.false_eq_true, ite_true, ite_false, hidx _ _ hx, hidx _ _ hy,
      neg_one_mul, one_mul, neg_neg, Prod.mk.eta]

/-- Witness for C8 at a concrete 1x2 input. -/
theorem C8_witness :
    (flipStep true true false
        (flipStep true true false (⟨1, 2, fun _ x => if x = 0 then 5 else 6⟩ : Grid ℚ)
          ⟨1, 2, fun _ _ => 0⟩ ⟨1, 2, fun _ _ => (3, 4)⟩).1
        (flipStep true true false (⟨1, 2, fun _ x => if x = 0 then 5 else 6⟩ : Grid ℚ)
          ⟨1, 2, fun _ _ => 0⟩ ⟨1, 2, fun _ _ => (3, 4)⟩).2.1
        (flipStep true true false (⟨1, 2, fun _ x => if x = 0 then 5 else 6⟩ : Grid ℚ)
          ⟨1, 2, fun _ _ => 0⟩ ⟨1, 2, fun _ _ => (3, 4)⟩).2.2).1.data 0 0 = 5 := by
  have h := (C8_double_hflip ⟨1, 2, fun _ x => if x = 0 then 5 else 6⟩
    ⟨1, 2, fun _ _ => 0⟩ ⟨1, 2, fun _ _ => (3, 4)⟩).2.2.2.2.2.2.1 0 0 (by decide) (by decide)
  simpa using h

/-- Claim C10: `interpolate_holes_numpy` modifies only invalid pixels:
wherever the mask is true (nonzero) and the input value is not NaN, the
output equals the input value cast to float32. -/
theorem C10_holes_frame (gridd : ℕ → ℕ → F32) (image : Grid F32) (valid_mask : Grid ℚ)
    (y x : ℕ) (q : ℚ) (_hy : y < image.h) (_hx : x < image.w)
    (hm : valid_mask.data y x ≠ 0) (hq : image.data y x = some q) :
    (interpolate_holes_numpy gridd image valid_mask).data y x = some q := by
  simp only [interpolate_holes_numpy]
  rw [if_pos hm, hq]

/-- Witness for C10 at a concrete 1-pixel input. -/
theorem C10_witness :
    (interpolate_holes_numpy (fun _ _ => none) ⟨1, 1, fun _ _ => some 7⟩
        ⟨1, 1, fun _ _ => 1⟩).data 0 0 = some 7 :=
  C10_holes_frame (fun _ _ => none) ⟨1, 1, fun _ _ => some 7⟩ ⟨1, 1, fun _ _ => 1⟩
    0 0 7 (by decide) (by decide) (by norm_num) rfl

/-- Claim C9: padding happens only on the bottom and right, only up to
the crop size, with zero fill; the top-left origin is preserved; the
padded validity region is 0 (false); and a dimension already at least
the crop size is not padded. -/
theorem C9_padding (cfg : Cfg) (i1 i2 : Grid ℚ) (fl : Grid Flo) (v : Grid ℚ)
    (h2h : i2.h = i1.h) (h2w : i2.w = i1.w) (hfh : fl.h = i1.h) (hfw : fl.w = i1.w)
    (hvh : v.h = i1.h) (hvw : v.w = i1.w) :
    ((padStep cfg i1 i2 fl v).1.h = max i1.h cfg.crop_h ∧
     (padStep cfg i1 i2 fl v).1.w = max i1.w cfg.crop_w ∧
     (padStep cfg i1 i2 fl v).2.1.h = max i1.h cfg.crop_h ∧
     (padStep cfg i1 i2 fl v).2.1.w = max i1.w cfg.crop_w ∧
     (padStep cfg i1 i2 fl v).2.2.1.h = max i1.h cfg.crop_h ∧
     (padStep cfg i1 i2 fl v).2.2.1.w = max i1.w cfg.crop_w ∧
     (padStep cfg i1 i2 fl v).2.2.2.h = max i1.h cfg.crop_h ∧
     (padStep cfg i1 i2 fl v).2.2.2.w = max i1.w cfg.crop_w) ∧
    (cfg.crop_h ≤ i1.h → (padStep cfg i1 i2 fl v).1.h = i1.h) ∧
    (cfg.crop_w ≤ i1.w → (padStep cfg i1 i2 fl v).1.w = i1.w) ∧
    (∀ y x, y < i1.h → x < i1.w →
      (padStep cfg i1 i2 fl v).1.data y x = i1.data y x ∧
      (padStep cfg i1 i2 fl v).2.1.data y x = i2.data y x ∧
      (padStep cfg i1 i2 fl v).2.2.1.data y x = fl.data y x ∧
      (padStep cfg i1 i2 fl v).2.2.2.data y x = v.data y x) ∧
    (∀ y x, y < (padStep cfg i1 i2 fl v).1.h → x < (padStep cfg i1 i2 fl v).1.w →
      i1.h ≤ y ∨ i1.w ≤ x →
      (padStep cfg i1 i2 fl v).1.data y x = 0 ∧
      (padStep cfg i1 i2 fl v).2.1.data y x = 0 ∧
      (padStep cfg i1 i2 fl v).2.2.1.data y x = (0, 0) ∧
      (padStep cfg i1 i2 fl v).2.2.2.data y x = 0) := by
  have hb : (if cfg.crop_h > i1.h then cfg.crop_h - i1.h else 0) = cfg.crop_h - i1.h := by
    split <;> omega
  have hr : (if cfg.crop_w > i1.w then cfg.crop_w - i1.w else 0) = cfg.crop_w - i1.w := by
    split <;> omega
  by_cases hc : cfg.crop_h - i1.h ≠ 0 ∨ cfg.crop_w - i1.w ≠ 0
  · have he : padStep cfg i1 i2 fl v =
        (padBR (cfg.crop_h - i1.h) (cfg.crop_w - i1.w) 0 i1,
         padBR (cfg.crop_h - i1.h) (cfg.crop_w - i1.w) 0 i2,
         padBR (cfg.crop_h - i1.h) (cfg.crop_w - i1.w) (0, 0) fl,
         padBR (cfg.crop_h - i1.h) (cfg.crop_w - i1.w) 0 v) := by
      simp only [padStep, hb, hr, if_pos hc]
    rw [he]
    dsimp only
    refine ⟨⟨by simp only [padBR]; omega, by simp only [padBR]; omega,
      by simp only [padBR]; omega, by simp only [padBR]; omega,
      by simp only [padBR]; omega, by simp only [padBR]; omega,
      by simp only [padBR]; omega, by simp only [padBR]; omega⟩,
      fun h => by simp only [padBR]; omega, fun h => by simp only [padBR]; omega, ?_, ?_⟩
    · intro y x hy hx
      refine ⟨?_, ?_, ?_, ?_⟩ <;> simp only [padBR]
      · rw [if_pos (⟨hy, hx⟩ : y < i1.h ∧ x < i1.w)]
      · rw [if_pos (show y < i2.h ∧ x < i2.w by omega)]
      · rw [if_pos (show y < fl.h ∧ x < fl.w by omega)]
      · rw [if_pos (show y < v.h ∧ x < v.w by omega)]
    · intro y x hy hx hor
      refine ⟨?_, ?_, ?_, ?_⟩ <;> simp only [padBR]
      · rw [if_neg (show ¬(y < i1.h ∧ x < i1.w) by omega)]
      · rw [if_neg (show ¬(y < i2.h ∧ x < i2.w) by omega)]
      · rw [if_neg (show ¬(y < fl.h ∧ x < fl.w) by omega)]
      · rw [if_neg (show ¬(y < v.h ∧ x < v.w) by omega)]
  · have he : padStep cfg i1 i2 fl v = (i1, i2, fl, v) := by
      simp only [padStep, hb, hr, if_neg hc]
    rw [he]
    dsimp only
    refine ⟨⟨by omega, by omega, by omega, by omega, by omega, by omega, by omega, by omega⟩,
      fun h => rfl, fun h => rfl, fun y x hy hx => ⟨rfl, rfl, rfl, rfl⟩, ?_⟩
    intro y x hy hx hor
    exact absurd hor (by omega)

/-- Witness for C9: a 1x1 input padded to a 2x2 crop; the padded
validity pixel is 0 and the padded height is the crop height. -/
theorem C9_witness :
    (padStep ⟨2, 2, false⟩ (⟨1, 1, fun _ _ => 3⟩ : Grid ℚ) ⟨1, 1, fun _ _ => 4⟩
        ⟨1, 1, fun _ _ => (1, 2)⟩ ⟨1, 1, fun _ _ => 1⟩).2.2.2.data 1 1 = 0 ∧
    (padStep ⟨2, 2, false⟩ (⟨1, 1, fun _ _ => 3⟩ : Grid ℚ) ⟨1, 1, fun _ _ => 4⟩
        ⟨1, 1, fun _ _ => (1, 2)⟩ ⟨1, 1, fun _ _ => 1⟩).1.h = 2 := by
  have h := C9_padding ⟨2, 2, false⟩ ⟨1, 1, fun _ _ => 3⟩ ⟨1, 1, fun _ _ => 4⟩
    ⟨1, 1, fun _ _ => (1, 2)⟩ ⟨1, 1, fun _ _ => 1⟩ rfl rfl rfl rfl rfl rfl
  exact ⟨(h.2.2.2.2 1 1 (by decide) (by decide) (Or.inl (by decide))).2.2.2,
    by rw [h.1.1]; decide⟩

/-- Claim C1 counterexample: with the resampling coin not taken and
flips disabled, a pixel that is invalid in the output keeps its nonzero
input flow value, so the output flow at an invalid pixel is not zero. -/
theorem C1_counterexample :
    (spatial_transform ⟨1, 1, false⟩ ⟨1, false, 1, 1, false, false, false, fun _ => 0, fun _ => 0⟩
        ⟨1, 1, fun _ _ => 0⟩ ⟨1, 1, fun _ _ => 0⟩ ⟨1, 1, fun _ _ => (3, 4)⟩
        ⟨1, 1, fun _ _ => 0⟩).2.2.2.data 0 0 = false ∧
    (spatial_transform ⟨1, 1, false⟩ ⟨1, false, 1, 1, false, false, false, fun _ => 0, fun _ => 0⟩
        ⟨1, 1, fun _ _ => 0⟩ ⟨1, 1, fun _ _ => 0⟩ ⟨1, 1, fun _ _ => (3, 4)⟩
        ⟨1, 1, fun _ _ => 0⟩).2.2.1.data 0 0 ≠ (0, 0) := by
  constructor <;>
    norm_num [spatial_transform, preCrop, padStep, thresholdHalf, cropWin, flipStep,
      sampledScales, minScaleQ, Prod.ext_iff]

/-- Claim C2 (code divergence): on a 1x2 sample with valid = [1, 0] and
a horizontal flip drawn (resampling not drawn), the flip block mirrors
the images and the flow but leaves the validity mask unchanged: the
output mask is still [true, false] although the mirrored mask would be
[false, true], and the invalid output pixel (0,1) carries the mirrored
nonzero flow vector. -/
theorem C2_valid_not_mirrored :
    (spatial_transform ⟨1, 2, true⟩ ⟨1, false, 1, 1, false, true, false, fun _ => 0, fun _ => 0⟩
        ⟨1, 2, fun _ x => if x = 0 then 10 else 20⟩ ⟨1, 2, fun _ x => if x = 0 then 10 else 20⟩
        ⟨1, 2, fun _ x => if x = 0 then (5, 0) else (0, 0)⟩
        ⟨1, 2, fun _ x => if x = 0 then 1 else 0⟩).2.2.2.data 0 0 = true ∧
    (spatial_transform ⟨1, 2, true⟩ ⟨1, false, 1, 1, false, true, false, fun _ => 0, fun _ => 0⟩
        ⟨1, 2, fun _ x => if x = 0 then 10 else 20⟩ ⟨1, 2, fun _ x => if x = 0 then 10 else 20⟩
        ⟨1, 2, fun _ x => if x = 0 then (5, 0) else (0, 0)⟩
        ⟨1, 2, fun _ x => if x = 0 then 1 else 0⟩).2.2.2.data 0 1 = false ∧
    (spatial_transform ⟨1, 2, true⟩ ⟨1, false, 1, 1, false, true, false, fun _ => 0, fun _ => 0⟩
        ⟨1, 2, fun _ x => if x = 0 then 10 else 20⟩ ⟨1, 2, fun _ x => if x = 0 then 10 else 20⟩
        ⟨1, 2, fun _ x => if x = 0 then (5, 0) else (0, 0)⟩
        ⟨1, 2, fun _ x => if x = 0 then 1 else 0⟩).2.2.1.data 0 1 = (-5, 0) ∧
    (spatial_transform ⟨1, 2, true⟩ ⟨1, false, 1, 1, false, true, false, fun _ => 0, fun _ => 0⟩
        ⟨1, 2, fun _ x => if x = 0 then 10 else 20⟩ ⟨1, 2, fun _ x => if x = 0 then 10 else 20⟩
        ⟨1, 2, fun _ x => if x = 0 then (5, 0) else (0, 0)⟩
        ⟨1, 2, fun _ x => if x = 0 then 1 else 0⟩).1.data 0 1 = 10 := by
  refine ⟨?_, ?_, ?_, ?_⟩ <;>
    norm_num [spatial_transform, preCrop, padStep, thresholdHalf, cropWin, flipStep,
      flipCols, negX, sampledScales, minScaleQ]

/-- Claim C4: the clipped scale factors are at least
`min_scale = max((crop_h+1)/ht, (crop_w+1)/wd)`, so the resized extent
strictly exceeds the crop size in both dimensions and the crop-offset
draw `randint(0, extent - crop)` has a nonempty range. -/
theorem C4_scale_safety (cfg : Cfg) (d : Draw) (ht wd : ℕ) (hht : 0 < ht) (hwd : 0 < wd) :
    minScaleQ cfg ht wd =
      max (((cfg.crop_h : ℚ) + 1) / (ht : ℚ)) (((cfg.crop_w : ℚ) + 1) / (wd : ℚ)) ∧
    minScaleQ cfg ht wd ≤ (sampledScales cfg d ht wd).1 ∧
    minScaleQ cfg ht wd ≤ (sampledScales cfg d ht wd).2 ∧
    cfg.crop_w < resizedDim wd (sampledScales cfg d ht wd).1 ∧
    cfg.crop_h < resizedDim ht (sampledScales cfg d ht wd).2 ∧
    0 < resizedDim wd (sampledScales cfg d ht wd).1 - cfg.crop_w ∧
    0 < resizedDim ht (sampledScales cfg d ht wd).2 - cfg.crop_h := by
  have hx := resizedDim_ge wd cfg.crop_w (sampledScales cfg d ht wd).1 hwd
    (le_trans (le_max_right _ _) (sampledScales_ge cfg d ht wd).1)
  have hy := resizedDim_ge ht cfg.crop_h (sampledScales cfg d ht wd).2 hht
    (le_trans (le_max_left _ _) (sampledScales_ge cfg d ht wd).2)
  exact ⟨rfl, (sampledScales_ge cfg d ht wd).1, (sampledScales_ge cfg d ht wd).2,
    hx, hy, by omega, by omega⟩

/-- Witness for C4 at a concrete configuration and draw. -/
theorem C4_witness :
    minScaleQ ⟨1, 1, false⟩ 1 1 =
      max ((((⟨1, 1, false⟩ : Cfg).crop_h : ℚ) + 1) / ((1 : ℕ) : ℚ))
        ((((⟨1, 1, false⟩ : Cfg).crop_w : ℚ) + 1) / ((1 : ℕ) : ℚ)) ∧
    minScaleQ ⟨1, 1, false⟩ 1 1 ≤
      (sampledScales ⟨1, 1, false⟩ ⟨1, false, 1, 1, false, false, false, fun _ => 0, fun _ => 0⟩ 1 1).1 ∧
    minScaleQ ⟨1, 1, false⟩ 1 1 ≤
      (sampledScales ⟨1, 1, false⟩ ⟨1, false, 1, 1, false, false, false, fun _ => 0, fun _ => 0⟩ 1 1).2 ∧
    (⟨1, 1, false⟩ : Cfg).crop_w <
      resizedDim 1 (sampledScales ⟨1, 1, false⟩ ⟨1, false, 1, 1, false, false, false, fun _ => 0, fun _ => 0⟩ 1 1).1 ∧
    (⟨1, 1, false⟩ : Cfg).crop_h <
      resizedDim 1 (sampledScales ⟨1, 1, false⟩ ⟨1, false, 1, 1, false, false, false, fun _ => 0, fun _ => 0⟩ 1 1).2 ∧
    0 < resizedDim 1 (sampledScales ⟨1, 1, false⟩ ⟨1, false, 1, 1, false, false, false, fun _ => 0, fun _ => 0⟩ 1 1).1 -
      (⟨1, 1, false⟩ : Cfg).crop_w ∧
    0 < resizedDim 1 (sampledScales ⟨1, 1, false⟩ ⟨1, false, 1, 1, false, false, false, fun _ => 0, fun _ => 0⟩ 1 1).2 -
      (⟨1, 1, false⟩ : Cfg).crop_h :=
  C4_scale_safety ⟨1, 1, false⟩ ⟨1, false, 1, 1, false, false, false, fun _ => 0, fun _ => 0⟩
    1 1 (by decide) (by decide)

/-- Claim C1, amended: whenever the resampling branch is taken and no
flip is applied (flips disabled, or both flip coins negative), every
output pixel that is invalid in the output mask has flow exactly
`(0, 0)`. -/
theorem C1_amended (cfg : Cfg) (d : Draw) (i1 i2 : Grid ℚ) (fl : Grid Flo) (v : Grid ℚ)
    (hres : d.doSpatialAug = true)
    (hfl : cfg.do_flip = false ∨ (d.doHFlip = false ∧ d.doVFlip = false)) :
    ∀ y x, (spatial_transform cfg d i1 i2 fl v).2.2.2.data y x = false →
      (spatial_transform cfg d i1 i2 fl v).2.2.1.data y x = (0, 0) := by
  have hpc : ∀ yy xx, (preCrop cfg d i1 i2 fl v).2.2.2.data yy xx = false →
      (preCrop cfg d i1 i2 fl v).2.2.1.data yy xx = (0, 0) := by
    intro yy xx hv
    simp only [preCrop, hres, if_true] at hv ⊢
    rw [flipStep_id cfg.do_flip d.doHFlip d.doVFlip _ _ _ hfl]
    exact resampleStep_flow_invalid _ _ _ _ _ _ yy xx hv
  intro y x h
  simp only [spatial_transform, cropWin] at h ⊢
  exact hpc _ _ h

/-- Witness for C1's amended theorem: a 1x1 all-invalid input through
the resampling branch yields zero flow at the invalid output pixel. -/
theorem C1_amended_witness :
    (spatial_transform ⟨1, 1, false⟩ ⟨1, false, 1, 1, true, false, false, fun _ => 0, fun _ => 0⟩
        ⟨1, 1, fun _ _ => 0⟩ ⟨1, 1, fun _ _ => 0⟩ ⟨1, 1, fun _ _ => (7, 9)⟩
        ⟨1, 1, fun _ _ => 0⟩).2.2.2.data 0 0 = false ∧
    (spatial_transform ⟨1, 1, false⟩ ⟨1, false, 1, 1, true, false, false, fun _ => 0, fun _ => 0⟩
        ⟨1, 1, fun _ _ => 0⟩ ⟨1, 1, fun _ _ => 0⟩ ⟨1, 1, fun _ _ => (7, 9)⟩
        ⟨1, 1, fun _ _ => 0⟩).2.2.1.data 0 0 = (0, 0) := by
  have hv : (spatial_transform ⟨1, 1, false⟩ ⟨1, false, 1, 1, true, false, false, fun _ => 0, fun _ => 0⟩
      ⟨1, 1, fun _ _ => 0⟩ ⟨1, 1, fun _ _ => 0⟩ ⟨1, 1, fun _ _ => (7, 9)⟩
      ⟨1, 1, fun _ _ => 0⟩).2.2.2.data 0 0 = false := by
    norm_num [spatial_transform, preCrop, padStep, thresholdHalf, cropWin, flipStep,
      sampledScales, minScaleQ, resampleStep, maskFlow, boolToQ, resizeFlowQ, resizeLinQ,
      flowScaleDiv, sampleCoord, clampQ, resizedDim, cvRound, epsDiv]
  exact ⟨hv, C1_amended ⟨1, 1, false⟩ ⟨1, false, 1, 1, true, false, false, fun _ => 0, fun _ => 0⟩
    ⟨1, 1, fun _ _ => 0⟩ ⟨1, 1, fun _ _ => 0⟩ ⟨1, 1, fun _ _ => (7, 9)⟩
    ⟨1, 1, fun _ _ => 0⟩ rfl (Or.inl rfl) 0 0 hv⟩

/-- Claim C3: for every input satisfying the shape preconditions and
every outcome of the random draws, all four outputs of the spatial
transform have spatial dimensions exactly `(crop_h, crop_w)`. -/
theorem C3_output_dims (cfg : Cfg) (d : Draw) (i1 i2 : Grid ℚ) (fl : Grid Flo) (v : Grid ℚ)
    (hwf : d.Wf) (hch : 1 ≤ cfg.crop_h) (hcw : 1 ≤ cfg.crop_w)
    (h2h : i2.h = i1.h) (h2w : i2.w = i1.w) (hfh : fl.h = i1.h) (hfw : fl.w = i1.w)
    (hvh : v.h = i1.h) (hvw : v.w = i1.w) :
    (spatial_transform cfg d i1 i2 fl v).1.h = cfg.crop_h ∧
    (spatial_transform cfg d i1 i2 fl v).1.w = cfg.crop_w ∧
    (spatial_transform cfg d i1 i2 fl v).2.1.h = cfg.crop_h ∧
    (spatial_transform cfg d i1 i2 fl v).2.1.w = cfg.crop_w ∧
    (spatial_transform cfg d i1 i2 fl v).2.2.1.h = cfg.crop_h ∧
    (spatial_transform cfg d i1 i2 fl v).2.2.1.w = cfg.crop_w ∧
    (spatial_transform cfg d i1 i2 fl v).2.2.2.h = cfg.crop_h ∧
    (spatial_transform cfg d i1 i2 fl v).2.2.2.w = cfg.crop_w := by
  obtain ⟨hH, hW, e2h, e2w, e3h, e3w, e4h, e4w⟩ :=
    preCrop_shape cfg d i1 i2 fl v hch hcw h2h h2w hfh hfw hvh hvw
  simp only [spatial_transform, cropWin]
  set pc := preCrop cfg d i1 i2 fl v with hpcdef
  set y0 := (if pc.1.h = cfg.crop_h then 0 else d.y0f (pc.1.h - cfg.crop_h)) with hy0def
  set x0 := (if pc.1.w = cfg.crop_w then 0 else d.x0f (pc.1.w - cfg.crop_w)) with hx0def
  have hy0 : y0 + cfg.crop_h ≤ pc.1.h := by
    rw [hy0def]
    split
    · omega
    · have := hwf.1 (pc.1.h - cfg.crop_h) (by omega)
      omega
  have hx0 : x0 + cfg.crop_w ≤ pc.1.w := by
    rw [hx0def]
    split
    · omega
    · have := hwf.2 (pc.1.w - cfg.crop_w) (by omega)
      omega
  exact ⟨by omega, by omega, by omega, by omega, by omega, by omega, by omega, by omega⟩

/-- Witness for C3 at a concrete 2x2 input with a 1x1 crop. -/
theorem C3_witness :
    (spatial_transform ⟨1, 1, false⟩ ⟨1, false, 1, 1, false, false, false, fun _ => 0, fun _ => 0⟩
        ⟨2, 2, fun _ _ => 1⟩ ⟨2, 2, fun _ _ => 2⟩ ⟨2, 2, fun _ _ => (3, 4)⟩
        ⟨2, 2, fun _ _ => 1⟩).1.h = (⟨1, 1, false⟩ : Cfg).crop_h ∧
    (spatial_transform ⟨1, 1, false⟩ ⟨1, false, 1, 1, false, false, false, fun _ => 0, fun _ => 0⟩
        ⟨2, 2, fun _ _ => 1⟩ ⟨2, 2, fun _ _ => 2⟩ ⟨2, 2, fun _ _ => (3, 4)⟩
        ⟨2, 2, fun _ _ => 1⟩).1.w = (⟨1, 1, false⟩ : Cfg).crop_w ∧
    (spatial_transform ⟨1, 1, false⟩ ⟨1, false, 1, 1, false, false, false, fun _ => 0, fun _ => 0⟩
        ⟨2, 2, fun _ _ => 1⟩ ⟨2, 2, fun _ _ => 2⟩ ⟨2, 2, fun _ _ => (3, 4)⟩
        ⟨2, 2, fun _ _ => 1⟩).2.1.h = (⟨1, 1, false⟩ : Cfg).crop_h ∧
    (spatial_transform ⟨1, 1, false⟩ ⟨1, false, 1, 1, false, false, false, fun _ => 0, fun _ => 0⟩
        ⟨2, 2, fun _ _ => 1⟩ ⟨2, 2, fun _ _ => 2⟩ ⟨2, 2, fun _ _ => (3, 4)⟩
        ⟨2, 2, fun _ _ => 1⟩).2.1.w = (⟨1, 1, false⟩ : Cfg).crop_w ∧
    (spatial_transform ⟨1, 1, false⟩ ⟨1, false, 1, 1, false, false, false, fun _ => 0, fun _ => 0⟩
        ⟨2, 2, fun _ _ => 1⟩ ⟨2, 2, fun _ _ => 2⟩ ⟨2, 2, fun _ _ => (3, 4)⟩
        ⟨2, 2, fun _ _ => 1⟩).2.2.1.h = (⟨1, 1, false⟩ : Cfg).crop_h ∧
    (spatial_transform ⟨1, 1, false⟩ ⟨1, false, 1, 1, false, false, false, fun _ => 0, fun _ => 0⟩
        ⟨2, 2, fun _ _ => 1⟩ ⟨2, 2, fun _ _ => 2⟩ ⟨2, 2, fun _ _ => (3, 4)⟩
        ⟨2, 2, fun _ _ => 1⟩).2.2.1.w = (⟨1, 1, false⟩ : Cfg).crop_w ∧
    (spatial_transform ⟨1, 1, false⟩ ⟨1, false, 1, 1, false, false, false, fun _ => 0, fun _ => 0⟩
        ⟨2, 2, fun _ _ => 1⟩ ⟨2, 2, fun _ _ => 2⟩ ⟨2, 2, fun _ _ => (3, 4)⟩
        ⟨2, 2, fun _ _ => 1⟩).2.2.2.h = (⟨1, 1, false⟩ : Cfg).crop_h ∧
    (spatial_transform ⟨1, 1, false⟩ ⟨1, false, 1, 1, false, false, false, fun _ => 0, fun _ => 0⟩
        ⟨2, 2, fun _ _ => 1⟩ ⟨2, 2, fun _ _ => 2⟩ ⟨2, 2, fun _ _ => (3, 4)⟩
        ⟨2, 2, fun _ _ => 1⟩).2.2.2.w = (⟨1, 1, false⟩ : Cfg).crop_w :=
  C3_output_dims ⟨1, 1, false⟩ ⟨1, false, 1, 1, false, false, false, fun _ => 0, fun _ => 0⟩
    ⟨2, 2, fun _ _ => 1⟩ ⟨2, 2, fun _ _ => 2⟩ ⟨2, 2, fun _ _ => (3, 4)⟩ ⟨2, 2, fun _ _ => 1⟩
    ⟨fun n h => h, fun n h => h⟩ (by decide) (by decide) rfl rfl rfl rfl rfl rfl

theorem sampleCoord_bounds (n : ℕ) (hn : 0 < n) (s : ℚ) (d : ℕ) :
    0 ≤ sampleCoord n s d ∧ sampleCoord n s d ≤ (n : ℚ) - 1 := by
  unfold sampleCoord clampQ
  refine ⟨le_max_left _ _, max_le ?_ (min_le_right _ _)⟩
  have : (1 : ℚ) ≤ (n : ℚ) := by exact_mod_cast hn
  linarith

theorem resize_sample_idx_lt (n : ℕ) (hn : 0 < n) (s : ℚ) (d : ℕ) :
    (Int.floor (sampleCoord n s d)).toNat < n ∧
    min ((Int.floor (sampleCoord n s d)).toNat + 1) (n - 1) < n := by
  obtain ⟨h0, h1⟩ := sampleCoord_bounds n hn s d
  have hf0 : 0 ≤ Int.floor (sampleCoord n s d) := Int.floor_nonneg.mpr h0
  have hfn : Int.floor (sampleCoord n s d) ≤ (n : ℤ) - 1 := by
    have h2 : Int.floor (sampleCoord n s d) ≤ Int.floor ((n : ℚ) - 1) :=
      Int.floor_le_floor h1
    have he : Int.floor ((n : ℚ) - 1) = (n : ℤ) - 1 := by
      rw [show ((n : ℚ) - 1) = (((n : ℤ) - 1 : ℤ) : ℚ) by push_cast; ring]
      exact Int.floor_intCast _
    omega
  omega

theorem resizedDim_zero (s : ℚ) : resizedDim 0 s = 0 := by
  simp only [resizedDim, cvRound, Nat.cast_zero, zero_mul, Int.floor_zero]
  norm_num

theorem resizeLinQ_zero (sx sy : ℚ) (g : Grid ℚ)
    (hz : ∀ y x, y < g.h → x < g.w → g.data y x = 0) (dy dx : ℕ)
    (hh : 0 < g.h) (hw : 0 < g.w) :
    (resizeLinQ sx sy g).data dy dx = 0 := by
  obtain ⟨hy0, hy1⟩ := resize_sample_idx_lt g.h hh sy dy
  obtain ⟨hx0, hx1⟩ := resize_sample_idx_lt g.w hw sx dx
  simp only [resizeLinQ]
  rw [hz _ _ hy0 hx0, hz _ _ hy0 hx1, hz _ _ hy1 hx0, hz _ _ hy1 hx1]
  ring

/-- Claim C5: in the resampling branch, the output validity is the
resized continuous validity density re-thresholded at `> 0.5`, and at
every pixel that remains valid the output flow equals the resize of the
invalid-zeroed flow, multiplied channel-wise by `(scale_x, scale_y)` and
divided by the resized density plus `1e-5` (broadcast over both
channels); at the re-thresholded-invalid pixels the flow is zeroed. -/
theorem C5_resample_pipeline (sx sy : ℚ) (i1 i2 : Grid ℚ) (fl : Grid Flo) (v : Grid Bool)
    (dy dx : ℕ) :
    (resampleStep sx sy i1 i2 fl v).2.2.2.data dy dx =
      decide ((1 : ℚ)/2 < (resizeLinQ sx sy (boolToQ v)).data dy dx) ∧
    (resampleStep sx sy i1 i2 fl v).2.2.1.data dy dx =
      (if (1 : ℚ)/2 < (resizeLinQ sx sy (boolToQ v)).data dy dx then
        (((resizeFlowQ sx sy (maskFlow fl v)).data dy dx).1 * sx /
            ((resizeLinQ sx sy (boolToQ v)).data dy dx + epsDiv),
         ((resizeFlowQ sx sy (maskFlow fl v)).data dy dx).2 * sy /
            ((resizeLinQ sx sy (boolToQ v)).data dy dx + epsDiv))
       else (0, 0)) := by
  refine ⟨rfl, ?_⟩
  show (if (thresholdHalf (resizeLinQ sx sy (boolToQ v))).data dy dx = true then
      (flowScaleDiv sx sy (resizeFlowQ sx sy (maskFlow fl v))
        (resizeLinQ sx sy (boolToQ v))).data dy dx
    else (0, 0)) = _
  simp only [thresholdHalf, flowScaleDiv, decide_eq_true_eq]

/-- Claim C6: if the input validity mask is false everywhere, the
resized validity density is exactly zero at every output pixel, the
epsilon-guarded divisor is positive, and the resampling branch produces
zero flow and an all-false mask at every output pixel. -/
theorem C6_all_invalid (sx sy : ℚ) (i1 i2 : Grid ℚ) (fl : Grid Flo) (v : Grid Bool)
    (hfh : fl.h = v.h) (hfw : fl.w = v.w)
    (hv : ∀ y x, y < v.h → x < v.w → v.data y x = false) :
    ∀ dy dx, dy < (resampleStep sx sy i1 i2 fl v).2.2.1.h →
      dx < (resampleStep sx sy i1 i2 fl v).2.2.1.w →
      (resizeLinQ sx sy (boolToQ v)).data dy dx = 0 ∧
      0 < (resizeLinQ sx sy (boolToQ v)).data dy dx + epsDiv ∧
      (resampleStep sx sy i1 i2 fl v).2.2.1.data dy dx = (0, 0) ∧
      (resampleStep sx sy i1 i2 fl v).2.2.2.data dy dx = false := by
  intro dy dx hdy hdx
  have h3h : (resampleStep sx sy i1 i2 fl v).2.2.1.h = resizedDim fl.h sy := rfl
  have h3w : (resampleStep sx sy i1 i2 fl v).2.2.1.w = resizedDim fl.w sx := rfl
  have hfh0 : 0 < fl.h := by
    by_contra hc
    have hz : fl.h = 0 := by omega
    rw [h3h, hz, resizedDim_zero] at hdy
    omega
  have hfw0 : 0 < fl.w := by
    by_contra hc
    have hz : fl.w = 0 := by omega
    rw [h3w, hz, resizedDim_zero] at hdx
    omega
  have hvh0 : 0 < v.h := by omega
  have hvw0 : 0 < v.w := by omega
  have hD : (resizeLinQ sx sy (boolToQ v)).data dy dx = 0 := by
    refine resizeLinQ_zero sx sy (boolToQ v) ?_ dy dx hvh0 hvw0
    intro y x hy hx
    simp only [boolToQ]
    rw [hv y x hy hx]
    simp
  have hthr : (thresholdHalf (resizeLinQ sx sy (boolToQ v))).data dy dx = false := by
    simp only [thresholdHalf]
    rw [hD]
    norm_num
  refine ⟨hD, by rw [hD]; norm_num [epsDiv], ?_, hthr⟩
  show (if (thresholdHalf (resizeLinQ sx sy (boolToQ v))).data dy dx = true then
      (flowScaleDiv sx sy (resizeFlowQ sx sy (maskFlow fl v))
        (resizeLinQ sx sy (boolToQ v))).data dy dx
    else (0, 0)) = (0, 0)
  rw [hthr]
  simp

/-- Witness for C6: a 1x1 all-invalid mask resized by a factor 2. -/
theorem C6_witness :
    (resizeLinQ 2 2 (boolToQ ⟨1, 1, fun _ _ => false⟩)).data 0 0 = 0 ∧
    0 < (resizeLinQ 2 2 (boolToQ ⟨1, 1, fun _ _ => false⟩)).data 0 0 + epsDiv ∧
    (resampleStep 2 2 (⟨1, 1, fun _ _ => 0⟩ : Grid ℚ) ⟨1, 1, fun _ _ => 0⟩
        ⟨1, 1, fun _ _ => (7, 9)⟩ ⟨1, 1, fun _ _ => false⟩).2.2.1.data 0 0 = (0, 0) ∧
    (resampleStep 2 2 (⟨1, 1, fun _ _ => 0⟩ : Grid ℚ) ⟨1, 1, fun _ _ => 0⟩
        ⟨1, 1, fun _ _ => (7, 9)⟩ ⟨1, 1, fun _ _ => false⟩).2.2.2.data 0 0 = false :=
  C6_all_invalid 2 2 ⟨1, 1, fun _ _ => 0⟩ ⟨1, 1, fun _ _ => 0⟩ ⟨1, 1, fun _ _ => (7, 9)⟩
    ⟨1, 1, fun _ _ => false⟩ rfl rfl (fun _ _ _ _ => rfl) 0 0
    (by show (0 : ℕ) < resizedDim 1 2; norm_num [resizedDim, cvRound])
    (by show (0 : ℕ) < resizedDim 1 2; norm_num [resizedDim, cvRound])

end WAFT
